import Mathlib

/-!
Verification development for the kn-sock connection-management layer
(`kn_sock/websocket.py` and the `TCPConnectionPool` in `kn_sock/tcp.py`).

Bytes are modelled as `Nat` values below 256, byte strings as `List Nat`,
Python text strings as `List Char`, and wall-clock instants as `Int`
(the code only ever compares time differences against a threshold).
A blocking `socket.recv(n)` on a stream whose peer eventually closes is
modelled as taking `min n remaining` bytes from the list of bytes the peer
sends before closing; `asyncio.StreamReader.readexactly(n)` is modelled as
taking exactly `n` bytes or failing.
-/

namespace KnSock

/-! ## UTF-8, modelling CPython's strict `str.encode("utf-8")` and
`bytes.decode("utf-8")` codec (the code delegates to it in `send`, `recv`
and `_handshake`). -/

/-- Byte sequence of one code point under UTF-8, as produced by
`str.encode("utf-8")`.  Lean `Char` carries exactly the valid Unicode
scalar values, matching Python `str` code points. -/
def utf8EncodeChar (c : Char) : List Nat :=
  let n := c.toNat
  if n < 0x80 then [n]
  else if n < 0x800 then [0xC0 + n / 64, 0x80 + n % 64]
  else if n < 0x10000 then [0xE0 + n / 4096, 0x80 + n / 64 % 64, 0x80 + n % 64]
  else [0xF0 + n / 262144, 0x80 + n / 4096 % 64, 0x80 + n / 64 % 64, 0x80 + n % 64]

/-- `str.encode("utf-8")` over a whole string. -/
def utf8Encode : List Char → List Nat
  | [] => []
  | c :: cs => utf8EncodeChar c ++ utf8Encode cs

/-- Decode one code point from the front of a byte string, rejecting stray
or missing continuation bytes, overlong forms, surrogates and values past
`0x10FFFF`, exactly as CPython's strict UTF-8 decoder does. -/
def utf8DecodeOne : List Nat → Option (Nat × List Nat)
  | [] => none
  | b :: bs =>
    if b < 0x80 then some (b, bs)
    else if b < 0xC0 then none
    else if b < 0xE0 then
      match bs with
      | b1 :: bs2 =>
        let v := (b - 0xC0) * 64 + (b1 - 0x80)
        if 0x80 ≤ b1 ∧ b1 < 0xC0 ∧ 0x80 ≤ v then some (v, bs2) else none
      | [] => none
    else if b < 0xF0 then
      match bs with
      | b1 :: b2 :: bs2 =>
        let v := (b - 0xE0) * 4096 + (b1 - 0x80) * 64 + (b2 - 0x80)
        if 0x80 ≤ b1 ∧ b1 < 0xC0 ∧ 0x80 ≤ b2 ∧ b2 < 0xC0 ∧ 0x800 ≤ v ∧
            ¬(0xD800 ≤ v ∧ v ≤ 0xDFFF) then some (v, bs2) else none
      | _ => none
    else if b < 0xF8 then
      match bs with
      | b1 :: b2 :: b3 :: bs2 =>
        let v := (b - 0xF0) * 262144 + (b1 - 0x80) * 4096 + (b2 - 0x80) * 64 +
          (b3 - 0x80)
        if 0x80 ≤ b1 ∧ b1 < 0xC0 ∧ 0x80 ≤ b2 ∧ b2 < 0xC0 ∧ 0x80 ≤ b3 ∧
            b3 < 0xC0 ∧ 0x10000 ≤ v ∧ v < 0x110000 then some (v, bs2) else none
      | _ => none
    else none

theorem utf8DecodeOne_length : ∀ {l rest : List Nat} {v : Nat},
    utf8DecodeOne l = some (v, rest) → rest.length < l.length := by
  intro l rest v h
  match l with
  | [] => simp [utf8DecodeOne] at h
  | b :: bs =>
    simp only [utf8DecodeOne] at h
    split_ifs at h <;> (try split at h) <;> (try split_ifs at h) <;>
      simp_all <;> omega

/-- Recursion workhorse for `utf8Decode`; the fuel argument only bounds the
recursion depth and is always called with at least the list length, one
byte of input being consumed per step. -/
def utf8DecodeFuel : Nat → List Nat → Option (List Char)
  | _, [] => some []
  | 0, _ :: _ => none
  | fuel + 1, b :: bs =>
    match utf8DecodeOne (b :: bs) with
    | some (v, rest) => (utf8DecodeFuel fuel rest).map fun cs => Char.ofNat v :: cs
    | none => none

/-- `bytes.decode("utf-8")`; `none` models the raised `UnicodeDecodeError`. -/
def utf8Decode (l : List Nat) : Option (List Char) :=
  utf8DecodeFuel l.length l

theorem utf8DecodeFuel_congr : ∀ (f1 f2 : Nat) (l : List Nat),
    l.length ≤ f1 → l.length ≤ f2 → utf8DecodeFuel f1 l = utf8DecodeFuel f2 l := by
  intro f1
  induction f1 with
  | zero =>
    intro f2 l h1 _
    have hl : l = [] := List.length_eq_zero.mp (Nat.le_zero.mp h1)
    subst hl
    cases f2 <;> rfl
  | succ f ih =>
    intro f2 l h1 h2
    cases l with
    | nil => cases f2 <;> rfl
    | cons b bs =>
      cases f2 with
      | zero => simp at h2
      | succ f2m =>
        rw [utf8DecodeFuel, utf8DecodeFuel]
        cases hd : utf8DecodeOne (b :: bs) with
        | none => rfl
        | some p =>
          obtain ⟨v, rest⟩ := p
          have hlen := utf8DecodeOne_length hd
          simp only [List.length_cons] at h1 h2 hlen
          dsimp only
          rw [ih f2m rest (by omega) (by omega)]

theorem utf8Decode_cons {l rest : List Nat} {v : Nat}
    (h : utf8DecodeOne l = some (v, rest)) :
    utf8Decode l = (utf8Decode rest).map fun cs => Char.ofNat v :: cs := by
  cases l with
  | nil => simp [utf8DecodeOne] at h
  | cons b bs =>
    have hlen := utf8DecodeOne_length h
    simp only [List.length_cons] at hlen
    unfold utf8Decode
    rw [List.length_cons, utf8DecodeFuel, h]
    dsimp only
    rw [utf8DecodeFuel_congr bs.length rest.length rest (by omega) (by omega)]

theorem char_toNat_valid (c : Char) :
    c.toNat < 0xD800 ∨ (0xDFFF < c.toNat ∧ c.toNat < 0x110000) :=
  c.valid

theorem utf8DecodeOne_encodeChar (c : Char) (rest : List Nat) :
    utf8DecodeOne (utf8EncodeChar c ++ rest) = some (c.toNat, rest) := by
  have hv := char_toNat_valid c
  unfold utf8EncodeChar
  by_cases h1 : c.toNat < 0x80
  · simp only [if_pos h1, List.cons_append, List.nil_append, utf8DecodeOne]
    try rw [if_pos h1]
  · by_cases h2 : c.toNat < 0x800
    · simp only [if_neg h1, if_pos h2, List.cons_append, List.nil_append,
        utf8DecodeOne]
      have hb : ¬ (0xC0 + c.toNat / 64 < 0x80) := by omega
      have hb2 : ¬ (0xC0 + c.toNat / 64 < 0xC0) := by omega
      have hb3 : 0xC0 + c.toNat / 64 < 0xE0 := by omega
      rw [if_neg hb, if_neg hb2, if_pos hb3]
      have hc : 0x80 ≤ 0x80 + c.toNat % 64 ∧ 0x80 + c.toNat % 64 < 0xC0 ∧
          0x80 ≤ (0xC0 + c.toNat / 64 - 0xC0) * 64 + (0x80 + c.toNat % 64 - 0x80) := by
        omega
      rw [if_pos hc]
      have hn : (0xC0 + c.toNat / 64 - 0xC0) * 64 + (0x80 + c.toNat % 64 - 0x80) =
          c.toNat := by omega
      rw [hn]
    · by_cases h3 : c.toNat < 0x10000
      · simp only [if_neg h1, if_neg h2, if_pos h3, List.cons_append,
          List.nil_append, utf8DecodeOne]
        have hb : ¬ (0xE0 + c.toNat / 4096 < 0x80) := by omega
        have hb2 : ¬ (0xE0 + c.toNat / 4096 < 0xC0) := by omega
        have hb3 : ¬ (0xE0 + c.toNat / 4096 < 0xE0) := by omega
        have hb4 : 0xE0 + c.toNat / 4096 < 0xF0 := by omega
        rw [if_neg hb, if_neg hb2, if_neg hb3, if_pos hb4]
        have hn : (0xE0 + c.toNat / 4096 - 0xE0) * 4096 +
            (0x80 + c.toNat / 64 % 64 - 0x80) * 64 + (0x80 + c.toNat % 64 - 0x80) =
            c.toNat := by omega
        have hc : 0x80 ≤ 0x80 + c.toNat / 64 % 64 ∧ 0x80 + c.toNat / 64 % 64 < 0xC0 ∧
            0x80 ≤ 0x80 + c.toNat % 64 ∧ 0x80 + c.toNat % 64 < 0xC0 ∧
            0x800 ≤ (0xE0 + c.toNat / 4096 - 0xE0) * 4096 +
              (0x80 + c.toNat / 64 % 64 - 0x80) * 64 + (0x80 + c.toNat % 64 - 0x80) ∧
            ¬(0xD800 ≤ (0xE0 + c.toNat / 4096 - 0xE0) * 4096 +
              (0x80 + c.toNat / 64 % 64 - 0x80) * 64 + (0x80 + c.toNat % 64 - 0x80) ∧
              (0xE0 + c.toNat / 4096 - 0xE0) * 4096 +
              (0x80 + c.toNat / 64 % 64 - 0x80) * 64 + (0x80 + c.toNat % 64 - 0x80) ≤
              0xDFFF) := by
          rw [hn]
          omega
        rw [if_pos hc, hn]
      · have h4 : c.toNat < 0x110000 := by omega
        simp only [if_neg h1, if_neg h2, if_neg h3, List.cons_append,
          List.nil_append, utf8DecodeOne]
        have hb : ¬ (0xF0 + c.toNat / 262144 < 0x80) := by omega
        have hb2 : ¬ (0xF0 + c.toNat / 262144 < 0xC0) := by omega
        have hb3 : ¬ (0xF0 + c.toNat / 262144 < 0xE0) := by omega
        have hb4 : ¬ (0xF0 + c.toNat / 262144 < 0xF0) := by omega
        have hb5 : 0xF0 + c.toNat / 262144 < 0xF8 := by omega
        rw [if_neg hb, if_neg hb2, if_neg hb3, if_neg hb4, if_pos hb5]
        have hn : (0xF0 + c.toNat / 262144 - 0xF0) * 262144 +
            (0x80 + c.toNat / 4096 % 64 - 0x80) * 4096 +
            (0x80 + c.toNat / 64 % 64 - 0x80) * 64 + (0x80 + c.toNat % 64 - 0x80) =
            c.toNat := by omega
        have hc : 0x80 ≤ 0x80 + c.toNat / 4096 % 64 ∧
            0x80 + c.toNat / 4096 % 64 < 0xC0 ∧
            0x80 ≤ 0x80 + c.toNat / 64 % 64 ∧ 0x80 + c.toNat / 64 % 64 < 0xC0 ∧
            0x80 ≤ 0x80 + c.toNat % 64 ∧ 0x80 + c.toNat % 64 < 0xC0 ∧
            0x10000 ≤ (0xF0 + c.toNat / 262144 - 0xF0) * 262144 +
              (0x80 + c.toNat / 4096 % 64 - 0x80) * 4096 +
              (0x80 + c.toNat / 64 % 64 - 0x80) * 64 + (0x80 + c.toNat % 64 - 0x80) ∧
            (0xF0 + c.toNat / 262144 - 0xF0) * 262144 +
              (0x80 + c.toNat / 4096 % 64 - 0x80) * 4096 +
              (0x80 + c.toNat / 64 % 64 - 0x80) * 64 + (0x80 + c.toNat % 64 - 0x80) <
              0x110000 := by
          rw [hn]
          omega
        rw [if_pos hc, hn]

/-- Strict UTF-8 decoding inverts encoding: `s.encode("utf-8").decode("utf-8")`
returns `s`. -/
theorem utf8Decode_utf8Encode (cs : List Char) :
    utf8Decode (utf8Encode cs) = some cs := by
  induction cs with
  | nil => rfl
  | cons c cs ih2 =>
    rw [utf8Encode, utf8Decode_cons (utf8DecodeOne_encodeChar c (utf8Encode cs)),
      ih2]
    simp [Char.ofNat_toNat]

/-! ## WebSocket frame codec

`WebSocketConnection.send` (websocket.py lines 49-59) and
`AsyncWebSocketConnection.send` (lines 308-318) build the frame bytes with
`struct.pack`; `recv` (lines 76-96) and the async `recv` (lines 335-354)
parse them. -/

/-- Big-endian byte string of width `w` for `n`, as `struct.pack` lays out
`!H` (`w = 2`) and `!Q` (`w = 8`).  `struct.pack` raises for `n ≥ 2^(8*w)`;
this model truncates instead, so theorems about the 8-byte path carry a
`< 2^64` hypothesis. -/
def beBytes : Nat → Nat → List Nat
  | 0, _ => []
  | w + 1, n => beBytes w (n / 256) ++ [n % 256]

/-- Big-endian value of a byte string, as `struct.unpack` reads it. -/
def beVal (l : List Nat) : Nat :=
  l.foldl (fun acc b => acc * 256 + b) 0

/-- `WebSocketConnection.send`: header byte `0x81` (FIN + text opcode), the
minimal length encoding, then the payload verbatim.  No MASK bit is ever
set and no mask key is embedded, whichever role the connection has. -/
def sendSyncFrame (payload : List Nat) : List Nat :=
  let length := payload.length
  let header := [0x81] ++
    (if length < 126 then [length]
     else if length < 65536 then [126] ++ beBytes 2 length
     else [127] ++ beBytes 8 length)
  header ++ payload

/-- `AsyncWebSocketConnection.send`: the same framing, written to the
asyncio stream writer. -/
def sendAsyncFrame (payload : List Nat) : List Nat :=
  let length := payload.length
  let header := [0x81] ++
    (if length < 126 then [length]
     else if length < 65536 then [126] ++ beBytes 2 length
     else [127] ++ beBytes 8 length)
  header ++ payload

/-- `send(message)` on the blocking connection: UTF-8 encode then frame. -/
def sendText (message : List Char) : List Nat :=
  sendSyncFrame (utf8Encode message)

/-- The unmasking loop `for i in range(length): data[i] ^= mask[i % 4]`,
started at position `i`.  Out-of-range mask indices read the default `0`;
the callers guard the cases where the Python loop would raise `IndexError`. -/
def xorMaskFrom (mask : List Nat) (i : Nat) : List Nat → List Nat
  | [] => []
  | b :: bs => (b ^^^ mask.getD (i % 4) 0) :: xorMaskFrom mask (i + 1) bs

/-- XOR a payload against a 4-byte mask key, byte `i` with `mask[i % 4]`. -/
def xorMask (mask data : List Nat) : List Nat :=
  xorMaskFrom mask 0 data

/-- Modelled from the spec: a correctly masked client text frame (MASK bit
set in byte 1, 4-byte key, payload XORed with `mask_key[i % 4]`).  The code
never produces masked frames, but its decoder must accept them; this is the
wire format of section 4.3 of the spec. -/
def maskedFrame (key payload : List Nat) : List Nat :=
  let length := payload.length
  let header := [0x81] ++
    (if length < 126 then [0x80 + length]
     else if length < 65536 then [0x80 + 126] ++ beBytes 2 length
     else [0x80 + 127] ++ beBytes 8 length)
  header ++ key ++ xorMask key payload

/-- Result of one `recv()` call: a clean zero-length first read returning
`""` and setting `open = False`; a decoded text message; or a raised
exception (`ValueError`, `struct.error`, `IndexError`, `OSError` or
`UnicodeDecodeError` — the model does not distinguish them). -/
inductive RecvOutcome
  | disconnected
  | msg (text : List Char)
  | err
deriving DecidableEq

/-- `WebSocketConnection.recv` on the byte stream the peer sends before
closing.  `conn.recv(n)` returns `min n remaining` bytes (empty only at
end of stream), so short reads silently truncate; in particular
`data = conn.recv(length)` is NOT rechecked against `length` in the
unmasked branch. -/
def recvSync : List Nat → RecvOutcome
  | [] => .disconnected
  | [_] => .err
  | _fin :: maskLen :: rest =>
    let masked := maskLen &&& 0x80 ≠ 0
    let len0 := maskLen &&& 0x7F
    let ext : Option (Nat × List Nat) :=
      if len0 = 126 then
        if 2 ≤ rest.length then some (beVal (rest.take 2), rest.drop 2) else none
      else if len0 = 127 then
        if 8 ≤ rest.length then some (beVal (rest.take 8), rest.drop 8) else none
      else some (len0, rest)
    match ext with
    | none => .err
    | some (length, rest2) =>
      if masked then
        let mask := rest2.take 4
        let data := (rest2.drop 4).take length
        if data.length = length ∧ ∀ i < length, i % 4 < mask.length then
          match utf8Decode (xorMask mask data) with
          | some cs => .msg cs
          | none => .err
        else .err
      else
        let data := rest2.take length
        match utf8Decode data with
        | some cs => .msg cs
        | none => .err

/-- `AsyncWebSocketConnection.recv` on the same byte stream.  Every read
is `reader.readexactly(n)`, which raises `IncompleteReadError` when the
stream ends first — including a clean end-of-stream before the 2-byte
header, so the `if not first2` branch of the code is unreachable and the
async flavor never returns the empty disconnect result. -/
def recvAsync : List Nat → RecvOutcome
  | [] => .err
  | [_] => .err
  | _fin :: maskLen :: rest =>
    let masked := maskLen &&& 0x80 ≠ 0
    let len0 := maskLen &&& 0x7F
    let ext : Option (Nat × List Nat) :=
      if len0 = 126 then
        if 2 ≤ rest.length then some (beVal (rest.take 2), rest.drop 2) else none
      else if len0 = 127 then
        if 8 ≤ rest.length then some (beVal (rest.take 8), rest.drop 8) else none
      else some (len0, rest)
    match ext with
    | none => .err
    | some (length, rest2) =>
      if masked then
        if 4 ≤ rest2.length then
          let mask := rest2.take 4
          let rest3 := rest2.drop 4
          if length ≤ rest3.length then
            match utf8Decode (xorMask mask (rest3.take length)) with
            | some cs => .msg cs
            | none => .err
          else .err
        else .err
      else
        if length ≤ rest2.length then
          match utf8Decode (rest2.take length) with
          | some cs => .msg cs
          | none => .err
        else .err

/-! ## Session state (`WebSocketConnection` object) -/

/-- The mutable state of a `WebSocketConnection`: the bytes the peer will
send before closing, whether `conn.close()` has been called on the
underlying socket, and the `open` attribute. -/
structure WSConn where
  recvStream : List Nat
  sockClosed : Bool
  isOpen : Bool
deriving DecidableEq

/-- `WebSocketConnection.close` (lines 110-116): best-effort send of the
close frame `b"\x88\x00"` with any exception swallowed, then
`conn.close()` (idempotent on an already-closed socket) and
`open = False`. -/
def closeConn (c : WSConn) : WSConn :=
  { c with sockClosed := true, isOpen := false }

/-- One `recv()` call on a connection object: `conn.recv` on a socket that
was closed locally raises `OSError` (bad file descriptor); otherwise the
frame parse runs on the incoming stream, and a zero-length first read sets
`open = False`. -/
def recvOnConn (c : WSConn) : RecvOutcome × WSConn :=
  if c.sockClosed then (.err, c)
  else
    match recvSync c.recvStream with
    | .disconnected => (.disconnected, { c with isOpen := false })
    | r => (r, c)

/-! ## `_handshake` (websocket.py lines 119-158): SHA-1, base64 and the
accept-key derivation `base64.b64encode(hashlib.sha1((key + GUID).encode()).digest())` -/

/-- Left rotation of a 32-bit word. -/
def rotl32 (k n : Nat) : Nat :=
  ((n <<< k) ||| (n >>> (32 - k))) % 4294967296

/-- Big-endian 32-bit words of a byte string, 4 bytes per word. -/
def beWords : List Nat → List Nat
  | b0 :: b1 :: b2 :: b3 :: rest =>
    (((b0 * 256 + b1) * 256 + b2) * 256 + b3) :: beWords rest
  | _ => []

/-- SHA-1 message padding: `0x80`, zeros to 56 mod 64, then the bit length
as 8 big-endian bytes. -/
def sha1Pad (msg : List Nat) : List Nat :=
  let padZeros := (55 + 64 - msg.length % 64) % 64
  msg ++ [0x80] ++ List.replicate padZeros 0 ++ beBytes 8 (msg.length * 8)

/-- Split into 64-byte blocks; the fuel is called with the list length, and
one block of at least one byte is consumed per step. -/
def chunks64 : Nat → List Nat → List (List Nat)
  | 0, _ => []
  | _, [] => []
  | fuel + 1, l => l.take 64 :: chunks64 fuel (l.drop 64)

/-- The next word of the SHA-1 message schedule. -/
def sha1ExtendStep (ws : List Nat) : Nat :=
  let L := ws.length
  rotl32 1 (ws.getD (L - 3) 0 ^^^ ws.getD (L - 8) 0 ^^^ ws.getD (L - 14) 0 ^^^
    ws.getD (L - 16) 0)

/-- Append `n` schedule words, extending the 16 block words to 80. -/
def sha1Extend : Nat → List Nat → List Nat
  | 0, ws => ws
  | n + 1, ws => sha1Extend n (ws ++ [sha1ExtendStep ws])

/-- SHA-1 round function, by round index. -/
def sha1F (i b c d : Nat) : Nat :=
  if i < 20 then (b &&& c) ||| ((b ^^^ 4294967295) &&& d)
  else if i < 40 then b ^^^ c ^^^ d
  else if i < 60 then (b &&& c) ||| (b &&& d) ||| (c &&& d)
  else b ^^^ c ^^^ d

/-- SHA-1 round constant, by round index. -/
def sha1K (i : Nat) : Nat :=
  if i < 20 then 0x5A827999
  else if i < 40 then 0x6ED9EBA1
  else if i < 60 then 0x8F1BBCDC
  else 0xCA62C1D6

/-- The 80 compression rounds over the schedule words. -/
def sha1Rounds : Nat → List Nat → Nat × Nat × Nat × Nat × Nat →
    Nat × Nat × Nat × Nat × Nat
  | _, [], st => st
  | i, w :: ws, (a, b, c, d, e) =>
    let temp := (rotl32 5 a + sha1F i b c d + e + sha1K i + w) % 4294967296
    sha1Rounds (i + 1) ws (temp, a, rotl32 30 b, c, d)

/-- Process one 64-byte block. -/
def sha1Chunk (h : Nat × Nat × Nat × Nat × Nat) (chunk : List Nat) :
    Nat × Nat × Nat × Nat × Nat :=
  let ws := sha1Extend 64 (beWords chunk)
  match h, sha1Rounds 0 ws h with
  | (h0, h1, h2, h3, h4), (a, b, c, d, e) =>
    ((h0 + a) % 4294967296, (h1 + b) % 4294967296, (h2 + c) % 4294967296,
      (h3 + d) % 4294967296, (h4 + e) % 4294967296)

/-- `hashlib.sha1(msg).digest()`: the 20-byte SHA-1 digest. -/
def sha1 (msg : List Nat) : List Nat :=
  let padded := sha1Pad msg
  match (chunks64 padded.length padded).foldl sha1Chunk
      (0x67452301, 0xEFCDAB89, 0x98BADCFE, 0x10325476, 0xC3D2E1F0) with
  | (h0, h1, h2, h3, h4) =>
    beBytes 4 h0 ++ beBytes 4 h1 ++ beBytes 4 h2 ++ beBytes 4 h3 ++ beBytes 4 h4

/-- The standard base64 alphabet character for a 6-bit value. -/
def base64Char (n : Nat) : Char :=
  (("ABCDEFGHIJKLMNOPQRSTUVWXYZabcdefghijklmnopqrstuvwxyz0123456789+/").toList).getD
    n (Char.ofNat 65)

/-- `base64.b64encode` with `=` padding. -/
def base64Encode : List Nat → List Char
  | [] => []
  | [b0] => [base64Char (b0 / 4), base64Char (b0 % 4 * 16), ('='), ('=')]
  | [b0, b1] =>
    [base64Char (b0 / 4), base64Char (b0 % 4 * 16 + b1 / 16),
      base64Char (b1 % 16 * 4), ('=')]
  | b0 :: b1 :: b2 :: rest =>
    base64Char (b0 / 4) :: base64Char (b0 % 4 * 16 + b1 / 16) ::
      base64Char (b1 % 16 * 4 + b2 / 64) :: base64Char (b2 % 64) ::
      base64Encode rest

/-- The fixed WebSocket GUID of websocket.py line 9. -/
def wsGUID : List Char := ("258EAFA5-E914-47DA-95CA-C5AB0DC85B11").toList

/-- websocket.py line 150: the Sec-WebSocket-Accept value computed by the
server handshake for a given Sec-WebSocket-Key. -/
def handshakeAccept (key : List Char) : List Char :=
  base64Encode (sha1 (utf8Encode (key ++ wsGUID)))

/-! ## `_handshake` request parsing (websocket.py lines 135-158) -/

/-- The end-of-headers delimiter `b"\r\n\r\n"`. -/
def crlfcrlf : List Nat := [13, 10, 13, 10]

/-- The read loop `while b"\r\n\r\n" not in request: chunk = conn.recv(1024)`;
`conn.recv(1024)` returns up to 1024 bytes and `b""` only at end of stream,
which makes the handshake return `False`.  The fuel argument only bounds
the recursion and is always called with more than the stream length, at
least one byte being consumed per step. -/
def recvUntilDelimFuel : Nat → List Nat → List Nat → Option (List Nat)
  | fuel, s, acc =>
    if crlfcrlf <:+: acc then some acc
    else
      match fuel, s with
      | _, [] => none
      | 0, _ :: _ => none
      | f + 1, b :: s2 =>
        recvUntilDelimFuel f ((b :: s2).drop 1024) (acc ++ (b :: s2).take 1024)

/-- The accumulated `request` bytes when the delimiter is found, `none`
when the stream is exhausted first. -/
def recvRequest (s : List Nat) : Option (List Nat) :=
  recvUntilDelimFuel (s.length + 1) s []

/-- Python `str.split("\r\n")`. -/
def splitOnCRLF : List Char → List (List Char)
  | [] => [[]]
  | [c] => [[c]]
  | c :: c2 :: rest =>
    if c = ('\r') ∧ c2 = ('\n') then
      [] :: splitOnCRLF rest
    else
      match splitOnCRLF (c2 :: rest) with
      | line :: lines => (c :: line) :: lines
      | [] => [[c]]

/-- Python `": " in line` plus `line.split(": ", 1)`: split at the first
occurrence of the two-character separator, `none` when absent. -/
def splitColonSpace : List Char → Option (List Char × List Char)
  | [] => none
  | [_] => none
  | c :: c2 :: rest =>
    if c = (':') ∧ c2 = (' ') then some ([], rest)
    else (splitColonSpace (c2 :: rest)).map fun kv => (c :: kv.1, kv.2)

/-- The header dict built by the loop over `request.decode().split("\r\n")[1:]`:
lines containing `": "` contribute `(key.lower(), value)`, later lines
overwriting earlier ones (Python `dict` assignment). -/
def parseHeaders (lines : List (List Char)) : List (List Char × List Char) :=
  lines.foldl
    (fun hs line =>
      match splitColonSpace line with
      | some kv => hs ++ [(kv.1.map Char.toLower, kv.2)]
      | none => hs)
    []

/-- `headers.get(k)`: the value of the last binding of `k`, if any. -/
def dictGet (k : List Char) (hs : List (List Char × List Char)) :
    Option (List Char) :=
  ((hs.filter fun kv => kv.1 = k).getLast?).map fun kv => kv.2

/-- The lower-cased header name the handshake looks up. -/
def secWebSocketKey : List Char := ("sec-websocket-key").toList

/-- The 101 response written on success, with the computed accept value
interpolated. -/
def handshakeResponse (accept : List Char) : List Char :=
  ("HTTP/1.1 101 Switching Protocols\r\nUpgrade: websocket\r\nConnection: Upgrade\r\nSec-WebSocket-Accept: ").toList ++
    accept ++ ("\r\n\r\n").toList

/-- `_handshake(conn)` over the inbound byte stream: read chunks until the
delimiter (else fail), decode the whole accumulated request as UTF-8 (a
`UnicodeDecodeError` also aborts the handshake), parse `Key: Value` lines
after the request line case-insensitively, and require a truthy (present
and non-empty) `sec-websocket-key` value.  `some response` models
`conn.sendall(response); return True`; `none` models `return False` or a
raised decode error.  Note nothing else is checked: not the request
method, nor the Upgrade, Connection or Sec-WebSocket-Version headers, nor
that the key is valid base64. -/
def handshake (s : List Nat) : Option (List Char) :=
  match recvRequest s with
  | none => none
  | some req =>
    match utf8Decode req with
    | none => none
    | some text =>
      match dictGet secWebSocketKey (parseHeaders ((splitOnCRLF text).drop 1)) with
      | none => none
      | some key => if key = [] then none else some (handshakeResponse (handshakeAccept key))

/-! ## `TCPConnectionPool` (tcp.py lines 673-765)

State: `_pool` is the idle list of `(conn, last_used_time)` pairs, `_used`
the lent counter, both guarded by one lock.  Transports are identified by
a `Nat` id; `nextId` supplies fresh ids for `_create_conn`.  Times are
`Int`-valued instants. -/

structure PoolState where
  maxSize : Nat
  idleTimeout : Int
  pool : List (Nat × Int)
  used : Nat
  nextId : Nat
deriving DecidableEq

/-- The pool as `__init__` leaves it. -/
def initPool (maxSize : Nat) (idleTimeout : Int) : PoolState :=
  { maxSize := maxSize, idleTimeout := idleTimeout, pool := [], used := 0,
    nextId := 0 }

/-- The lazy sweep run at the top of `connection()` and of each wait-loop
iteration: `self._pool = [(c, t) for (c, t) in self._pool if now - t < self.idle_timeout]`. -/
def evictIdle (now : Int) (timeout : Int) (pool : List (Nat × Int)) :
    List (Nat × Int) :=
  pool.filter fun ct => now - ct.2 < timeout

/-- Outcome of one evaluation of the body of `connection()`:
a Transport handed to the caller, a factory exception propagating out, or
entry into the polling wait loop.  Each carries the pool state as left
behind under the lock. -/
inductive AcquireResult
  | ok (p : PoolState) (conn : Nat)
  | fail (p : PoolState)
  | blocked (p : PoolState)
deriving DecidableEq

/-- `TCPConnectionPool.connection` (tcp.py lines 732-760) up to its first
return, exception or entry into the wait loop: sweep the idle list, pop
its last element if any, else create a fresh Transport when
`used < max_size` (`factoryOk = false` models `_create_conn` raising a
connection or TLS error before `_used` is touched), else start waiting. -/
def connection (now : Int) (factoryOk : Bool) (p : PoolState) : AcquireResult :=
  let pl := evictIdle now p.idleTimeout p.pool
  match pl.getLast? with
  | some c => .ok { p with pool := pl.dropLast, used := p.used + 1 } c.1
  | none =>
    if p.used < p.maxSize then
      if factoryOk then
        .ok { p with pool := pl, used := p.used + 1, nextId := p.nextId + 1 }
          p.nextId
      else .fail { p with pool := pl }
    else .blocked { p with pool := pl }

/-- One wake-up of the wait loop inside `connection()` (lines 750-760):
re-sweep, pop the last idle entry if one appeared, else keep waiting. -/
def waitRetry (now : Int) (p : PoolState) : AcquireResult :=
  let pl := evictIdle now p.idleTimeout p.pool
  match pl.getLast? with
  | some c => .ok { p with pool := pl.dropLast, used := p.used + 1 } c.1
  | none => .blocked { p with pool := pl }

/-- `TCPConnectionPool._release` (lines 762-765): append the Transport to
the idle list with a fresh timestamp and decrement `_used`.  It is only
reachable from `_PooledConn.__exit__`, i.e. for a Transport previously
lent by `connection()`. -/
def releasePool (now : Int) (conn : Nat) (p : PoolState) : PoolState :=
  { p with pool := p.pool ++ [(conn, now)], used := p.used - 1 }

/-- Interleaved `connection()` / release steps against one pool, at
arbitrary (not necessarily monotone) times.  A release step requires a
lent Transport (`0 < used`), matching the only call site of `_release`. -/
inductive PoolStep : PoolState → PoolState → Prop
  | acquireOk {p q : PoolState} (now : Int) (ok : Bool) (c : Nat) :
      connection now ok p = .ok q c → PoolStep p q
  | acquireFail {p q : PoolState} (now : Int) :
      connection now false p = .fail q → PoolStep p q
  | acquireBlocked {p q : PoolState} (now : Int) (ok : Bool) :
      connection now ok p = .blocked q → PoolStep p q
  | waitOk {p q : PoolState} (now : Int) (c : Nat) :
      waitRetry now p = .ok q c → PoolStep p q
  | waitBlocked {p q : PoolState} (now : Int) :
      waitRetry now p = .blocked q → PoolStep p q
  | release {p : PoolState} (now : Int) (c : Nat) :
      0 < p.used → PoolStep p (releasePool now c p)

/-- Pool states reachable from a freshly constructed pool by interleaved
acquire/release traffic. -/
inductive PoolReachable (m : Nat) (t : Int) : PoolState → Prop
  | init : PoolReachable m t (initPool m t)
  | step {p q : PoolState} : PoolReachable m t p → PoolStep p q →
      PoolReachable m t q

/-! ## Frame codec lemmas -/

theorem beBytes_length (w : Nat) : ∀ (n : Nat), (beBytes w n).length = w := by
  induction w with
  | zero => intro n; rfl
  | succ w ih =>
    intro n
    rw [beBytes, List.length_append, ih]
    rfl

theorem beVal_append (l : List Nat) (b : Nat) :
    beVal (l ++ [b]) = beVal l * 256 + b := by
  unfold beVal
  rw [List.foldl_append]
  rfl

theorem beVal_beBytes (w : Nat) : ∀ n, beVal (beBytes w n) = n % 2 ^ (8 * w) := by
  induction w with
  | zero =>
    intro n
    simp [beBytes, beVal, Nat.mod_one]
  | succ w ih =>
    intro n
    rw [beBytes, beVal_append, ih]
    have h28 : 2 ^ (8 * (w + 1)) = 256 * 2 ^ (8 * w) := by
      rw [Nat.mul_succ, Nat.pow_add]
      ring
    rw [h28, Nat.mod_mul]
    ring

theorem xorMaskFrom_length (mask : List Nat) (i : Nat) (l : List Nat) :
    (xorMaskFrom mask i l).length = l.length := by
  induction l generalizing i with
  | nil => rfl
  | cons b bs ih => rw [xorMaskFrom, List.length_cons, List.length_cons, ih]

theorem xorMask_length (mask l : List Nat) : (xorMask mask l).length = l.length :=
  xorMaskFrom_length mask 0 l

theorem xorMaskFrom_invol (mask : List Nat) (i : Nat) (l : List Nat) :
    xorMaskFrom mask i (xorMaskFrom mask i l) = l := by
  induction l generalizing i with
  | nil => rfl
  | cons b bs ih =>
    rw [xorMaskFrom, xorMaskFrom, ih, Nat.xor_cancel_right]

theorem xorMask_invol (mask l : List Nat) : xorMask mask (xorMask mask l) = l :=
  xorMaskFrom_invol mask 0 l

theorem and127_eq (n : Nat) : n &&& 127 = n % 128 := by
  have h := Nat.and_pow_two_sub_one_eq_mod n 7
  norm_num at h
  exact h

theorem and128_of_lt {n : Nat} (h : n < 128) : n &&& 128 = 0 := by
  have h7 : (2 : Nat) ^ 7 = 128 := by norm_num
  have h3 : n.testBit 7 = false := Nat.testBit_eq_false_of_lt (by rw [h7]; exact h)
  have h2 := Nat.and_two_pow n 7
  rw [h3, h7] at h2
  simpa using h2

theorem and128_of_add {L : Nat} (h : L < 128) : (128 + L) &&& 128 = 128 := by
  have h7 : (2 : Nat) ^ 7 = 128 := by norm_num
  have h3 : (128 + L).testBit 7 = true := by
    rw [Nat.testBit_to_div_mod]
    have hd : (128 + L) / 2 ^ 7 = 1 := by rw [h7]; omega
    rw [hd]
    decide
  have h2 := Nat.and_two_pow (128 + L) 7
  rw [h3, h7] at h2
  simpa using h2

/-- Parsing an unmasked frame produced by `send` recovers the payload and
decodes it; any length path (`< 126`, 16-bit, 64-bit) round-trips. -/
theorem recvSync_sendSyncFrame (p : List Nat) (h64 : p.length < 2 ^ 64) :
    recvSync (sendSyncFrame p) = match utf8Decode p with
      | some cs => RecvOutcome.msg cs
      | none => RecvOutcome.err := by
  unfold sendSyncFrame
  by_cases h1 : p.length < 126
  · simp only [if_pos h1, List.cons_append, List.nil_append]
    rw [recvSync]
    dsimp only
    rw [and128_of_lt (by omega), and127_eq, Nat.mod_eq_of_lt (by omega),
      if_neg (by omega), if_neg (by omega)]
    dsimp only
    rw [if_neg (by simp), List.take_length]
  · by_cases h2 : p.length < 65536
    · simp only [if_neg h1, if_pos h2, List.cons_append, List.nil_append]
      rw [recvSync]
      dsimp only
      have hm : (126 : Nat) &&& 128 = 0 := by decide
      have hl : (126 : Nat) &&& 127 = 126 := by decide
      rw [hm, hl, if_pos rfl]
      have hlen2 : (beBytes 2 p.length ++ p).length = 2 + p.length := by
        rw [List.length_append, beBytes_length]
      rw [if_pos (by rw [hlen2]; omega)]
      rw [List.take_left' (beBytes_length 2 p.length),
        List.drop_left' (beBytes_length 2 p.length)]
      dsimp only
      rw [beVal_beBytes]
      have hmod : p.length % 2 ^ (8 * 2) = p.length := Nat.mod_eq_of_lt (by norm_num; omega)
      rw [hmod, if_neg (by simp), List.take_length]
    · simp only [if_neg h1, if_neg h2, List.cons_append, List.nil_append]
      rw [recvSync]
      dsimp only
      have hm : (127 : Nat) &&& 128 = 0 := by decide
      have hl : (127 : Nat) &&& 127 = 127 := by decide
      rw [hm, hl, if_neg (by norm_num), if_pos rfl]
      have hlen8 : (beBytes 8 p.length ++ p).length = 8 + p.length := by
        rw [List.length_append, beBytes_length]
      rw [if_pos (by rw [hlen8]; omega)]
      rw [List.take_left' (beBytes_length 8 p.length),
        List.drop_left' (beBytes_length 8 p.length)]
      dsimp only
      rw [beVal_beBytes]
      have hmod : p.length % 2 ^ (8 * 8) = p.length := Nat.mod_eq_of_lt (by norm_num; omega)
      rw [hmod, if_neg (by simp), List.take_length]

/-- Parsing a correctly masked frame: the decoder detects the MASK bit,
reads the 4-byte key and XORs byte `i` with `mask_key[i % 4]`, recovering
the payload. -/
theorem recvSync_maskedFrame (key p : List Nat) (hkey : key.length = 4)
    (h64 : p.length < 2 ^ 64) :
    recvSync (maskedFrame key p) = match utf8Decode p with
      | some cs => RecvOutcome.msg cs
      | none => RecvOutcome.err := by
  unfold maskedFrame
  have hxl : (xorMask key p).length = p.length := xorMask_length key p
  by_cases h1 : p.length < 126
  · simp only [if_pos h1, List.cons_append, List.nil_append, List.append_assoc]
    rw [recvSync]
    dsimp only
    rw [and128_of_add (by omega), and127_eq]
    have hL : (128 + p.length) % 128 = p.length := by omega
    rw [hL, if_neg (by omega), if_neg (by omega)]
    dsimp only
    rw [if_pos (by norm_num)]
    rw [List.take_left' hkey, List.drop_left' hkey]
    rw [← hxl, List.take_length]
    rw [if_pos ⟨rfl, fun i _ => by rw [hkey]; exact Nat.mod_lt i (by norm_num)⟩]
    rw [xorMask_invol]
  · by_cases h2 : p.length < 65536
    · simp only [if_neg h1, if_pos h2, List.cons_append, List.nil_append,
        List.append_assoc]
      rw [recvSync]
      dsimp only
      have hm : (128 + 126 : Nat) &&& 128 = 128 := by decide
      have hl : (128 + 126 : Nat) &&& 127 = 126 := by decide
      rw [hm, hl, if_pos rfl]
      have hrl : (beBytes 2 p.length ++ (key ++ xorMask key p)).length =
          2 + (4 + p.length) := by
        rw [List.length_append, List.length_append, beBytes_length, hkey, hxl]
      rw [if_pos (by rw [hrl]; omega)]
      rw [List.take_left' (beBytes_length 2 p.length),
        List.drop_left' (beBytes_length 2 p.length)]
      dsimp only
      rw [beVal_beBytes]
      have hmod : p.length % 2 ^ (8 * 2) = p.length :=
        Nat.mod_eq_of_lt (by norm_num; omega)
      rw [hmod]
      rw [if_pos (by norm_num)]
      rw [List.take_left' hkey, List.drop_left' hkey]
      rw [← hxl, List.take_length]
      rw [if_pos ⟨rfl, fun i _ => by rw [hkey]; exact Nat.mod_lt i (by norm_num)⟩]
      rw [xorMask_invol]
    · simp only [if_neg h1, if_neg h2, List.cons_append, List.nil_append,
        List.append_assoc]
      rw [recvSync]
      dsimp only
      have hm : (128 + 127 : Nat) &&& 128 = 128 := by decide
      have hl : (128 + 127 : Nat) &&& 127 = 127 := by decide
      rw [hm, hl, if_neg (by norm_num), if_pos rfl]
      have hrl : (beBytes 8 p.length ++ (key ++ xorMask key p)).length =
          8 + (4 + p.length) := by
        rw [List.length_append, List.length_append, beBytes_length, hkey, hxl]
      rw [if_pos (by rw [hrl]; omega)]
      rw [List.take_left' (beBytes_length 8 p.length),
        List.drop_left' (beBytes_length 8 p.length)]
      dsimp only
      rw [beVal_beBytes]
      have hmod : p.length % 2 ^ (8 * 8) = p.length :=
        Nat.mod_eq_of_lt (by norm_num; omega)
      rw [hmod]
      rw [if_pos (by norm_num)]
      rw [List.take_left' hkey, List.drop_left' hkey]
      rw [← hxl, List.take_length]
      rw [if_pos ⟨rfl, fun i _ => by rw [hkey]; exact Nat.mod_lt i (by norm_num)⟩]
      rw [xorMask_invol]

/-! ## Claim theorems -/

/-- Counterexample to claim C1: the frame `send("A")` produces — on a
connection returned by `connect_websocket` just as on a server-side one —
is `[0x81, 0x01, 0x41]`: byte 1 is `0x01`, its high (MASK) bit is clear
and no 4-byte mask key follows the header. -/
theorem send_mask_bit_cex :
    sendSyncFrame [65] = [129, 1, 65] ∧ sendAsyncFrame [65] = [129, 1, 65] ∧
      (sendSyncFrame [65]).getD 1 0 &&& 128 = 0 := by
  decide

/-- Claim C1 (amended): `send` never masks, on either role and in either
flavor: byte 1 of every outgoing text frame has the MASK bit clear, the
async frame is byte-identical to the blocking one, and the payload is
appended verbatim after a 2-, 4- or 10-byte unmasked header. -/
theorem send_never_masks (p : List Nat) :
    ((sendSyncFrame p).getD 1 0) &&& 128 = 0 ∧
    sendAsyncFrame p = sendSyncFrame p ∧
    (sendSyncFrame p = [129, p.length] ++ p ∨
      sendSyncFrame p = [129, 126] ++ beBytes 2 p.length ++ p ∨
      sendSyncFrame p = [129, 127] ++ beBytes 8 p.length ++ p) := by
  refine ⟨?_, rfl, ?_⟩
  · unfold sendSyncFrame
    by_cases h1 : p.length < 126
    · simp only [if_pos h1, List.cons_append, List.nil_append,
        List.getD_cons_succ, List.getD_cons_zero]
      exact and128_of_lt (by omega)
    · by_cases h2 : p.length < 65536
      · simp only [if_neg h1, if_pos h2, List.cons_append, List.nil_append,
          List.getD_cons_succ, List.getD_cons_zero]
        decide
      · simp only [if_neg h1, if_neg h2, List.cons_append, List.nil_append,
          List.getD_cons_succ, List.getD_cons_zero]
        decide
  · unfold sendSyncFrame
    by_cases h1 : p.length < 126
    · left
      simp [if_pos h1]
    · by_cases h2 : p.length < 65536
      · right; left
        simp [if_neg h1, if_pos h2]
      · right; right
        simp [if_neg h1, if_neg h2]

/-- Claim C2: framing then parsing returns the original text for every
message (hence for every payload length, covering the 1-byte, 16-bit and
64-bit length paths), and parsing a correctly masked encoding — the
decoder XORs payload byte `i` with `mask_key[i % 4]` — also returns the
original text. -/
theorem frame_roundtrip (cs : List Char) (key : List Nat)
    (hkey : key.length = 4) (hlen : (utf8Encode cs).length < 2 ^ 64) :
    recvSync (sendText cs) = .msg cs ∧
    recvSync (maskedFrame key (utf8Encode cs)) = .msg cs := by
  constructor
  · unfold sendText
    rw [recvSync_sendSyncFrame _ hlen, utf8Decode_utf8Encode]
  · rw [recvSync_maskedFrame key _ hkey hlen, utf8Decode_utf8Encode]

/-- Witness for C2 at the concrete message `"ab"` and key `[1, 2, 3, 4]`. -/
theorem frame_roundtrip_witness :
    ([1, 2, 3, 4] : List Nat).length = 4 ∧
    (utf8Encode (("ab").toList)).length < 2 ^ 64 ∧
    (recvSync (sendText (("ab").toList)) = .msg (("ab").toList) ∧
      recvSync (maskedFrame [1, 2, 3, 4] (utf8Encode (("ab").toList))) =
        .msg (("ab").toList)) :=
  ⟨by decide, by decide,
    frame_roundtrip (("ab").toList) [1, 2, 3, 4] (by decide) (by decide)⟩

set_option maxRecDepth 200000 in
/-- Claim C4: the accept value equals
`base64(SHA1(key ++ "258EAFA5-E914-47DA-95CA-C5AB0DC85B11"))` for every
key, and on the RFC 6455 sample key it equals the canonical test vector. -/
theorem handshake_accept_derivation :
    handshakeAccept (("dGhlIHNhbXBsZSBub25jZQ==").toList) =
      ("s3pPLMBiTxaQ9kYGzzhZRbK+xOo=").toList ∧
    ∀ k : List Char,
      handshakeAccept k = base64Encode (sha1 (utf8Encode (k ++ wsGUID))) :=
  ⟨by decide, fun _ => rfl⟩

/-- Claim C5 (code bug): the two flavors do emit byte-identical frames,
but on peer disconnect before a frame (zero-length read) the blocking
`recv` returns the empty result while the cooperative `recv` raises
`asyncio.IncompleteReadError` — `readexactly` never returns the empty
bytes that its dead `if not first2` branch tests for, contradicting the
method's own docstring ("an empty string on disconnect"). -/
theorem sync_async_disconnect_divergence :
    (∀ p : List Nat, sendAsyncFrame p = sendSyncFrame p) ∧
    recvSync [] = .disconnected ∧ recvAsync [] = .err ∧
    RecvOutcome.err ≠ RecvOutcome.disconnected :=
  ⟨fun _ => rfl, rfl, rfl, by decide⟩

/-- Counterexample to claim C6: after `close()`, a subsequent `recv()`
raises `OSError` (`socket.recv` on the locally closed file descriptor)
instead of returning an empty result. -/
theorem recv_after_close_cex :
    (recvOnConn (closeConn
      { recvStream := [], sockClosed := false, isOpen := true })).1 =
        .err ∧
    RecvOutcome.err ≠ RecvOutcome.disconnected ∧
    RecvOutcome.err ≠ RecvOutcome.msg [] := by
  decide

/-- Claim C6 (amended): after `close()`, `open` is false and a second
`close()` is a no-op (the close-frame write failure is swallowed and
`socket.close` is idempotent, so there is no error and no double-free);
but a subsequent `recv()` raises a socket error rather than returning an
empty result. -/
theorem close_lifecycle (c : WSConn) :
    (closeConn c).isOpen = false ∧
    closeConn (closeConn c) = closeConn c ∧
    (recvOnConn (closeConn c)).1 = .err ∧
    (recvOnConn (closeConn c)).2 = closeConn c :=
  ⟨rfl, rfl, rfl, rfl⟩

/-- Claim C7 (code bug): on the truncated stream `[0x81, 0x02, 0x61]` — a
header declaring a 2-byte payload of which only one byte arrives before
the peer closes — `recv()` silently returns the text decoded from the
partial payload; `open` stays true and `close()` is never called. -/
theorem truncated_frame_partial_text :
    recvSync [129, 2, 97] = .msg [('a')] ∧
    recvOnConn ({ recvStream := [129, 2, 97], sockClosed := false,
                  isOpen := true }) =
      (.msg [('a')],
        ({ recvStream := [129, 2, 97], sockClosed := false, isOpen := true })) := by
  decide


/-! ## Pool lemmas and claims -/

theorem evictIdle_length_le (now t : Int) (pool : List (Nat × Int)) :
    (evictIdle now t pool).length ≤ pool.length :=
  List.length_filter_le _ _

theorem getLast?_none_eq_nil {α : Type} {l : List α} (h : l.getLast? = none) :
    l = [] := by
  cases l with
  | nil => rfl
  | cons a l2 => simp [List.getLast?] at h

/-- Inversion of a successful `connection()` call: either the last
fresh-enough idle entry was popped, or the swept idle list was empty and a
fresh Transport was created under capacity. -/
theorem connection_ok_inv {now : Int} {ok : Bool} {p q : PoolState} {c : Nat}
    (h : connection now ok p = .ok q c) :
    (∃ ct, (evictIdle now p.idleTimeout p.pool).getLast? = some ct ∧ ct.1 = c ∧
      q = { p with pool := (evictIdle now p.idleTimeout p.pool).dropLast,
                   used := p.used + 1 }) ∨
    (evictIdle now p.idleTimeout p.pool = [] ∧ p.used < p.maxSize ∧
      c = p.nextId ∧
      q = { p with pool := [], used := p.used + 1, nextId := p.nextId + 1 }) := by
  unfold connection at h
  dsimp only at h
  cases hl : (evictIdle now p.idleTimeout p.pool).getLast? with
  | some ct =>
    rw [hl] at h
    dsimp only at h
    injection h with h1 h2
    exact Or.inl ⟨ct, rfl, h2, h1.symm⟩
  | none =>
    rw [hl] at h
    dsimp only at h
    have hpl : evictIdle now p.idleTimeout p.pool = [] := getLast?_none_eq_nil hl
    by_cases hu : p.used < p.maxSize
    · rw [if_pos hu] at h
      cases ok with
      | false => simp at h
      | true =>
        rw [if_pos rfl] at h
        injection h with h1 h2
        refine Or.inr ⟨hpl, hu, h2.symm, ?_⟩
        rw [← h1, hpl]
    · rw [if_neg hu] at h
      simp at h

/-- Inversion of a failing `connection()` call: the factory raised after
the sweep found no usable idle Transport, under capacity, and before
`_used` was incremented. -/
theorem connection_fail_inv {now : Int} {p q : PoolState}
    (h : connection now false p = .fail q) :
    evictIdle now p.idleTimeout p.pool = [] ∧ p.used < p.maxSize ∧
      q = { p with pool := [] } := by
  unfold connection at h
  dsimp only at h
  cases hl : (evictIdle now p.idleTimeout p.pool).getLast? with
  | some ct =>
    rw [hl] at h
    dsimp only at h
    simp at h
  | none =>
    rw [hl] at h
    dsimp only at h
    have hpl : evictIdle now p.idleTimeout p.pool = [] := getLast?_none_eq_nil hl
    by_cases hu : p.used < p.maxSize
    · rw [if_pos hu] at h
      simp only [Bool.false_eq_true, if_false] at h
      injection h with h1
      refine ⟨hpl, hu, ?_⟩
      rw [← h1, hpl]
    · rw [if_neg hu] at h
      simp at h

/-- Inversion of a `connection()` call that enters the wait loop. -/
theorem connection_blocked_inv {now : Int} {ok : Bool} {p q : PoolState}
    (h : connection now ok p = .blocked q) :
    evictIdle now p.idleTimeout p.pool = [] ∧ ¬ p.used < p.maxSize ∧
      q = { p with pool := [] } := by
  unfold connection at h
  dsimp only at h
  cases hl : (evictIdle now p.idleTimeout p.pool).getLast? with
  | some ct =>
    rw [hl] at h
    dsimp only at h
    simp at h
  | none =>
    rw [hl] at h
    dsimp only at h
    have hpl : evictIdle now p.idleTimeout p.pool = [] := getLast?_none_eq_nil hl
    by_cases hu : p.used < p.maxSize
    · rw [if_pos hu] at h
      cases ok with
      | false => simp at h
      | true => rw [if_pos rfl] at h; simp at h
    · rw [if_neg hu] at h
      injection h with h1
      refine ⟨hpl, hu, ?_⟩
      rw [← h1, hpl]

/-- Inversion of a wait-loop wake-up that pops an idle Transport. -/
theorem waitRetry_ok_inv {now : Int} {p q : PoolState} {c : Nat}
    (h : waitRetry now p = .ok q c) :
    ∃ ct, (evictIdle now p.idleTimeout p.pool).getLast? = some ct ∧ ct.1 = c ∧
      q = { p with pool := (evictIdle now p.idleTimeout p.pool).dropLast,
                   used := p.used + 1 } := by
  unfold waitRetry at h
  dsimp only at h
  cases hl : (evictIdle now p.idleTimeout p.pool).getLast? with
  | some ct =>
    rw [hl] at h
    dsimp only at h
    injection h with h1 h2
    exact ⟨ct, rfl, h2, h1.symm⟩
  | none =>
    rw [hl] at h
    dsimp only at h
    simp at h

/-- Inversion of a wait-loop wake-up that keeps waiting. -/
theorem waitRetry_blocked_inv {now : Int} {p q : PoolState}
    (h : waitRetry now p = .blocked q) :
    evictIdle now p.idleTimeout p.pool = [] ∧ q = { p with pool := [] } := by
  unfold waitRetry at h
  dsimp only at h
  cases hl : (evictIdle now p.idleTimeout p.pool).getLast? with
  | some ct =>
    rw [hl] at h
    dsimp only at h
    simp at h
  | none =>
    rw [hl] at h
    dsimp only at h
    have hpl : evictIdle now p.idleTimeout p.pool = [] := getLast?_none_eq_nil hl
    injection h with h1
    refine ⟨hpl, ?_⟩
    rw [← h1, hpl]

/-- Every acquire/release step preserves `idle_count + lent_count ≤ max_size`. -/
theorem poolStep_inv {p q : PoolState} (hstep : PoolStep p q)
    (hinv : p.pool.length + p.used ≤ p.maxSize) :
    q.pool.length + q.used ≤ q.maxSize := by
  cases hstep with
  | acquireOk now ok c h =>
    rcases connection_ok_inv h with ⟨ct, hl, _, hq⟩ | ⟨hpl, hu, _, hq⟩
    · subst hq
      have hnil : evictIdle now p.idleTimeout p.pool ≠ [] := by
        intro he
        rw [he] at hl
        simp at hl
      have hle := evictIdle_length_le now p.idleTimeout p.pool
      have hpos : 0 < (evictIdle now p.idleTimeout p.pool).length :=
        List.length_pos.mpr hnil
      simp only [List.length_dropLast]
      omega
    · subst hq
      simp only [List.length_nil]
      omega
  | acquireFail now h =>
    rcases connection_fail_inv h with ⟨hpl, hu, hq⟩
    subst hq
    simp only [List.length_nil]
    omega
  | acquireBlocked now ok h =>
    rcases connection_blocked_inv h with ⟨hpl, hu, hq⟩
    subst hq
    simp only [List.length_nil]
    omega
  | waitOk now c h =>
    rcases waitRetry_ok_inv h with ⟨ct, hl, _, hq⟩
    subst hq
    have hnil : evictIdle now p.idleTimeout p.pool ≠ [] := by
      intro he
      rw [he] at hl
      simp at hl
    have hle := evictIdle_length_le now p.idleTimeout p.pool
    have hpos : 0 < (evictIdle now p.idleTimeout p.pool).length :=
      List.length_pos.mpr hnil
    simp only [List.length_dropLast]
    omega
  | waitBlocked now h =>
    rcases waitRetry_blocked_inv h with ⟨hpl, hq⟩
    subst hq
    simp only [List.length_nil]
    omega
  | release now c hu =>
    unfold releasePool
    simp only [List.length_append, List.length_cons, List.length_nil]
    omega

/-- Every step leaves the pool configuration untouched. -/
theorem poolStep_config {p q : PoolState} (hstep : PoolStep p q) :
    q.maxSize = p.maxSize ∧ q.idleTimeout = p.idleTimeout := by
  cases hstep with
  | acquireOk now ok c h =>
    rcases connection_ok_inv h with ⟨ct, _, _, hq⟩ | ⟨_, _, _, hq⟩ <;>
      subst hq <;> exact ⟨rfl, rfl⟩
  | acquireFail now h =>
    rcases connection_fail_inv h with ⟨_, _, hq⟩
    subst hq
    exact ⟨rfl, rfl⟩
  | acquireBlocked now ok h =>
    rcases connection_blocked_inv h with ⟨_, _, hq⟩
    subst hq
    exact ⟨rfl, rfl⟩
  | waitOk now c h =>
    rcases waitRetry_ok_inv h with ⟨ct, _, _, hq⟩
    subst hq
    exact ⟨rfl, rfl⟩
  | waitBlocked now h =>
    rcases waitRetry_blocked_inv h with ⟨_, hq⟩
    subst hq
    exact ⟨rfl, rfl⟩
  | release now c hu => exact ⟨rfl, rfl⟩

/-- Claim C3: against a pool constructed with `max_size = M`, in every
state reachable by interleaved `connection()` and release calls the number
of simultaneously lent Transports never exceeds `M`, and
`idle_count + lent_count ≤ max_size` holds. -/
theorem pool_capacity_invariant (m : Nat) (t : Int) (p : PoolState)
    (h : PoolReachable m t p) :
    p.maxSize = m ∧ p.used ≤ m ∧ p.pool.length + p.used ≤ m := by
  have hmax : p.maxSize = m ∧ p.pool.length + p.used ≤ p.maxSize := by
    induction h with
    | init => simp [initPool]
    | step hr hs ih =>
      exact ⟨(poolStep_config hs).1.trans ih.1, poolStep_inv hs ih.2⟩
  obtain ⟨h1, h2⟩ := hmax
  exact ⟨h1, by omega, by omega⟩

/-- The pool state after acquiring once from a fresh 2-slot pool. -/
def poolAfterOne : PoolState :=
  { maxSize := 2, idleTimeout := 30, pool := [], used := 1, nextId := 1 }

/-- Witness for C3: the invariant, instantiated on the state reached from
`initPool 2 30` by one successful acquire. -/
theorem pool_capacity_invariant_witness :
    poolAfterOne.maxSize = 2 ∧ poolAfterOne.used ≤ 2 ∧
    poolAfterOne.pool.length + poolAfterOne.used ≤ 2 :=
  pool_capacity_invariant 2 30 poolAfterOne
    (PoolReachable.step PoolReachable.init
      (PoolStep.acquireOk 0 true 0
        (by decide : connection 0 true (initPool 2 30) = .ok poolAfterOne 0)))

/-- Claim C8: `connection()` consults exactly the idle Transports younger
than `idle_timeout` (the lazy sweep drops precisely those with
`now - t ≥ idle_timeout`); a returned Transport is either an idle one whose
age is `< idle_timeout`, or — when every pooled entry is stale or the idle
list is empty, and capacity allows — a freshly created one. -/
theorem acquire_never_returns_stale (now : Int) (ok : Bool) (p q : PoolState)
    (c : Nat) (h : connection now ok p = .ok q c) :
    (∀ d : Nat, ∀ t : Int,
      ((d, t) ∈ evictIdle now p.idleTimeout p.pool ↔
        (d, t) ∈ p.pool ∧ now - t < p.idleTimeout)) ∧
    ((∃ t, (c, t) ∈ p.pool ∧ now - t < p.idleTimeout) ∨
      (c = p.nextId ∧ p.used < p.maxSize ∧
        ∀ d : Nat, ∀ t : Int, (d, t) ∈ p.pool → p.idleTimeout ≤ now - t)) ∧
    (∀ q2 : PoolState, ∀ c2 : Nat, waitRetry now p = .ok q2 c2 →
      ∃ t, (c2, t) ∈ p.pool ∧ now - t < p.idleTimeout) := by
  refine ⟨?_, ?_, ?_⟩
  · intro d t
    simp [evictIdle, List.mem_filter]
  · rcases connection_ok_inv h with ⟨ct, hl, hc, _⟩ | ⟨hpl, hu, hc, _⟩
    · left
      have hmem : ct ∈ evictIdle now p.idleTimeout p.pool :=
        List.mem_of_getLast?_eq_some hl
      rw [evictIdle, List.mem_filter] at hmem
      refine ⟨ct.2, ?_, by simpa using hmem.2⟩
      have hpair : (c, ct.2) = ct := by rw [← hc]
      rw [hpair]
      exact hmem.1
    · right
      refine ⟨hc, hu, ?_⟩
      intro d t hmem
      rw [evictIdle, List.filter_eq_nil_iff] at hpl
      have hd := hpl (d, t) hmem
      simp at hd
      omega
  · intro q2 c2 h2
    rcases waitRetry_ok_inv h2 with ⟨ct, hl, hc, _⟩
    have hmem : ct ∈ evictIdle now p.idleTimeout p.pool :=
      List.mem_of_getLast?_eq_some hl
    rw [evictIdle, List.mem_filter] at hmem
    refine ⟨ct.2, ?_, by simpa using hmem.2⟩
    have hpair : (c2, ct.2) = ct := by rw [← hc]
    rw [hpair]
    exact hmem.1

/-- A pool holding one idle Transport (id 7) last used at time 0. -/
def poolStale : PoolState :=
  { maxSize := 2, idleTimeout := 30, pool := [(7, 0)], used := 0, nextId := 1 }

/-- Witness for C8: acquiring at time 30 from `poolStale` — its only idle
entry is exactly `idle_timeout` old — returns the fresh Transport 1, never
the stale 7. -/
theorem acquire_never_returns_stale_witness :
    ((∀ d : Nat, ∀ t : Int,
      ((d, t) ∈ evictIdle 30 poolStale.idleTimeout poolStale.pool ↔
        (d, t) ∈ poolStale.pool ∧ 30 - t < poolStale.idleTimeout)) ∧
    ((∃ t, (1, t) ∈ poolStale.pool ∧ 30 - t < poolStale.idleTimeout) ∨
      (1 = poolStale.nextId ∧ poolStale.used < poolStale.maxSize ∧
        ∀ d : Nat, ∀ t : Int, (d, t) ∈ poolStale.pool →
          poolStale.idleTimeout ≤ 30 - t)) ∧
    (∀ q2 : PoolState, ∀ c2 : Nat, waitRetry 30 poolStale = .ok q2 c2 →
      ∃ t, (c2, t) ∈ poolStale.pool ∧ 30 - t < poolStale.idleTimeout)) :=
  acquire_never_returns_stale 30 true poolStale
    ({ maxSize := 2, idleTimeout := 30, pool := [], used := 1, nextId := 2 }) 1
    (by decide)

/-- Claim C9: when `_create_conn` raises, the error propagates out of
`connection()` with `_used` untouched and the idle list changed only by
the lazy sweep already performed; at any later instant the pool presents
the same idle set as if the failed call had never happened. -/
theorem factory_failure_preserves_pool (now : Int) (p q : PoolState)
    (h : connection now false p = .fail q) :
    q.used = p.used ∧ q.nextId = p.nextId ∧ q.maxSize = p.maxSize ∧
    q.idleTimeout = p.idleTimeout ∧
    q.pool = evictIdle now p.idleTimeout p.pool ∧
    ∀ now2 : Int, now ≤ now2 →
      evictIdle now2 p.idleTimeout q.pool = evictIdle now2 p.idleTimeout p.pool := by
  rcases connection_fail_inv h with ⟨hpl, _, hq⟩
  subst hq
  refine ⟨rfl, rfl, rfl, rfl, hpl.symm, ?_⟩
  intro now2 h2
  show evictIdle now2 p.idleTimeout [] = _
  rw [← hpl]
  unfold evictIdle
  rw [List.filter_filter]
  apply List.filter_congr
  intro a _
  by_cases hc : now2 - a.2 < p.idleTimeout
  · have hc2 : now - a.2 < p.idleTimeout := by omega
    simp [hc, hc2]
  · simp [hc]

/-- Witness for C9: a factory failure on the fresh pool `initPool 2 30`
leaves it in its initial state. -/
theorem factory_failure_preserves_pool_witness :
    (initPool 2 30).used = (initPool 2 30).used ∧
    (initPool 2 30).nextId = (initPool 2 30).nextId ∧
    (initPool 2 30).maxSize = (initPool 2 30).maxSize ∧
    (initPool 2 30).idleTimeout = (initPool 2 30).idleTimeout ∧
    (initPool 2 30).pool = evictIdle 0 (initPool 2 30).idleTimeout (initPool 2 30).pool ∧
    ∀ now2 : Int, 0 ≤ now2 →
      evictIdle now2 (initPool 2 30).idleTimeout (initPool 2 30).pool =
        evictIdle now2 (initPool 2 30).idleTimeout (initPool 2 30).pool :=
  factory_failure_preserves_pool 0 (initPool 2 30) (initPool 2 30) (by decide)

/-! ## Handshake claims -/

theorem recvUntilDelimFuel_none_iff : ∀ (fuel : Nat) (s acc : List Nat),
    s.length ≤ fuel →
    (recvUntilDelimFuel fuel s acc = none ↔ ¬ crlfcrlf <:+: acc ++ s) := by
  intro fuel
  induction fuel with
  | zero =>
    intro s acc h
    have hs : s = [] := List.length_eq_zero.mp (Nat.le_zero.mp h)
    subst hs
    rw [recvUntilDelimFuel.eq_def]
    by_cases hd : crlfcrlf <:+: acc
    · simp [hd]
    · simp [hd]
  | succ f ih =>
    intro s acc h
    rw [recvUntilDelimFuel.eq_def]
    dsimp only
    by_cases hd : crlfcrlf <:+: acc
    · have hds : crlfcrlf <:+: acc ++ s :=
        hd.trans (List.prefix_append acc s).isInfix
      simp [hd, hds]
    · rw [if_neg hd]
      cases s with
      | nil => simp [hd]
      | cons b s2 =>
        simp only [List.length_cons] at h
        dsimp only
        rw [ih ((b :: s2).drop 1024) (acc ++ (b :: s2).take 1024)
          (by simp only [List.length_drop, List.length_cons]; omega)]
        rw [List.append_assoc, List.take_append_drop]

/-- The read loop finds a request exactly when the stream contains the
end-of-headers delimiter. -/
theorem recvRequest_none_iff (s : List Nat) :
    recvRequest s = none ↔ ¬ crlfcrlf <:+: s := by
  unfold recvRequest
  rw [recvUntilDelimFuel_none_iff (s.length + 1) s [] (by omega)]
  rw [List.nil_append]

/-- Claim C10 (amended): the server handshake succeeds exactly when the
chunked read finds the `\r\n\r\n` delimiter (equivalently, the delimiter
occurs in the stream), the accumulated request decodes as UTF-8, and the
header dict built from the lines after the request line maps
sec-websocket-key (case-insensitively, last occurrence winning) to a
NON-EMPTY value; nothing else — method, Upgrade, Connection,
Sec-WebSocket-Version, base64 validity of the key — is ever consulted, and
on success the 101 response carries the derived accept value. -/
theorem handshake_characterization (s : List Nat) :
    ((handshake s).isSome ↔
      ∃ req text key, recvRequest s = some req ∧ utf8Decode req = some text ∧
        dictGet secWebSocketKey (parseHeaders ((splitOnCRLF text).drop 1)) =
          some key ∧ key ≠ []) ∧
    (recvRequest s = none ↔ ¬ crlfcrlf <:+: s) ∧
    (∀ req text key, recvRequest s = some req → utf8Decode req = some text →
      dictGet secWebSocketKey (parseHeaders ((splitOnCRLF text).drop 1)) =
        some key → key ≠ [] →
      handshake s = some (handshakeResponse (handshakeAccept key))) := by
  refine ⟨?_, recvRequest_none_iff s, ?_⟩
  · unfold handshake
    simp only [List.drop_one]
    cases hr : recvRequest s with
    | none => simp [hr]
    | some req =>
      cases ht : utf8Decode req with
      | none => simp [hr, ht]
      | some text =>
        cases hk : dictGet secWebSocketKey
            (parseHeaders ((splitOnCRLF text).tail)) with
        | none => simp [hr, ht, hk]
        | some key =>
          by_cases hke : key = []
          · simp [hr, ht, hk, hke]
          · simp [hr, ht, hk, hke]
  · intro req text key h1 h2 h3 h4
    unfold handshake
    rw [h1]
    dsimp only
    rw [h2]
    dsimp only
    rw [h3]
    dsimp only
    rw [if_neg h4]

set_option maxRecDepth 400000 in
/-- Witness for C10 on a well-formed request: delimiter present, valid
UTF-8, non-empty key — the handshake writes the 101 response with the
RFC 6455 accept value. -/
theorem handshake_characterization_witness :
    handshake (utf8Encode (("GET / HTTP/1.1\r\nSec-WebSocket-Key: dGhlIHNhbXBsZSBub25jZQ==\r\n\r\n").toList)) =
      some (handshakeResponse
        (handshakeAccept (("dGhlIHNhbXBsZSBub25jZQ==").toList))) :=
  (handshake_characterization
    (utf8Encode (("GET / HTTP/1.1\r\nSec-WebSocket-Key: dGhlIHNhbXBsZSBub25jZQ==\r\n\r\n").toList))).2.2
    (utf8Encode (("GET / HTTP/1.1\r\nSec-WebSocket-Key: dGhlIHNhbXBsZSBub25jZQ==\r\n\r\n").toList))
    (("GET / HTTP/1.1\r\nSec-WebSocket-Key: dGhlIHNhbXBsZSBub25jZQ==\r\n\r\n").toList)
    (("dGhlIHNhbXBsZSBub25jZQ==").toList)
    (by decide) (by decide) (by decide) (by decide)

/-- The request stream of the C10 counterexample: delimiter and a
Sec-WebSocket-Key header line present, but with an empty value. -/
def emptyKeyRequest : List Nat :=
  utf8Encode (("GET / HTTP/1.1\r\nSec-WebSocket-Key: \r\n\r\n").toList)

set_option maxRecDepth 400000 in
/-- Counterexample to claim C10: `emptyKeyRequest` contains the
end-of-headers delimiter and a header line whose key case-insensitively
equals sec-websocket-key, yet the handshake fails — `if not key` treats
the empty value like a missing header. -/
theorem handshake_empty_key_cex :
    handshake emptyKeyRequest = none ∧
    crlfcrlf <:+: emptyKeyRequest ∧
    (∃ line ∈ (splitOnCRLF
        (("GET / HTTP/1.1\r\nSec-WebSocket-Key: \r\n\r\n").toList)).drop 1,
      ((splitColonSpace line).map fun kv => kv.1.map Char.toLower) =
        some secWebSocketKey) :=
  ⟨by decide, by decide, by decide⟩

end KnSock
